import Mathlib

/-!
Verification of the tool-augmented conversation orchestrator of the
modelgate examples, a shallow embedding of the Python sources

  examples/modelgate_mcp_demo.py   (DynamicToolContext, ModelGateLLMClient,
                                    ModelGateMCPClient, extract_tool_result,
                                    run_chat_session)
  examples/modelgate_mcp_agent.py  (ModelGateMCPAgent)
  examples/claude_mcp_bridge.py    (MCPBridge)

Python dictionaries holding JSON data are embedded as the inductive type
JsonV; Python dicts with a fixed key set are embedded as structures whose
Option-typed fields conflate an absent key with a null value where the
source treats the two alike.  External effects, namely the json library
parse of text received over the wire, the HTTP transport, the model-chat
endpoint and the tool executions behind the gateway, are passed in as
explicit oracle parameters; everything else is translated directly from
the source.
-/

/-- A JSON value, the embedding of the Python dict/list/str/int/bool/None
data handled by the scripts.  Objects keep their key order, matching the
insertion order of a Python dict. -/
inductive JsonV where
  | null
  | bool (b : Bool)
  | int (n : Int)
  | str (s : String)
  | arr (elems : List JsonV)
  | obj (fields : List (String × JsonV))

/-- Lookup of a key in an embedded Python dict, first occurrence wins
(keys of the dicts built by the scripts are distinct). -/
def lookupField (k : String) : List (String × JsonV) → Option JsonV
  | [] => none
  | (k', v) :: rest => if k = k' then some v else lookupField k rest

/-- The LLM function-calling payload stored for one tool, the inner
"function" dict built by DynamicToolContext.add_tools_from_search
(modelgate_mcp_demo.py lines 126-132). -/
structure FunctionSpec where
  name : String
  description : String
  parameters : JsonV
  input_examples : Option JsonV := none

/-- One tool descriptor in LLM format, the dict
  \x7b "type": "function", "function": ... \x7d
(modelgate_mcp_demo.py lines 74-99 and 125-135). -/
structure ToolSpec where
  type : String
  function : FunctionSpec

/-- The tool_search specification of DynamicToolContext.__init__
(modelgate_mcp_demo.py lines 74-99), transcribed literally. -/
def tool_search_spec : ToolSpec :=
  { type := "function"
    function :=
      { name := "tool_search"
        description := "Search for available tools by natural language query. Returns tool specifications that will be added to your available tools. Use this FIRST when you need to perform an action you haven't used before."
        parameters := JsonV.obj
          [ ("type", JsonV.str "object"),
            ("properties", JsonV.obj
              [ ("query", JsonV.obj
                  [ ("type", JsonV.str "string"),
                    ("description", JsonV.str "Natural language description of the capability you're looking for (e.g., 'calculate math expressions', 'read files', 'get weather')") ]),
                ("category", JsonV.obj
                  [ ("type", JsonV.str "string"),
                    ("description", JsonV.str "Optional category filter: messaging, file-system, database, api, git, calendar, shell, search, other") ]),
                ("max_results", JsonV.obj
                  [ ("type", JsonV.str "integer"),
                    ("description", JsonV.str "Maximum number of tools to return (default: 5)"),
                    ("default", JsonV.int 5) ]) ]),
            ("required", JsonV.arr [JsonV.str "query"]) ]
        input_examples := none } }

/-- One raw tool entry of a tool_search result, carrying exactly the keys
the scripts read from it: tool.get("name"), tool.get("description"),
tool.get("inputSchema"), and the "inputExamples" key.  A missing key is
none; a name that is present but null is also none (both are falsy in the
Python truthiness test on line 123 of modelgate_mcp_demo.py). -/
structure RawTool where
  name : Option String := none
  description : Option String := none
  inputSchema : Option JsonV := none
  inputExamples : Option JsonV := none

/-- The parsed JSON body of a tool_search result text:
result.get("tools", []) of modelgate_mcp_demo.py line 118. -/
structure SearchResult where
  tools : List RawTool := []

/-- DynamicToolContext of modelgate_mcp_demo.py: the mutable map
discovered_tools from tool name to LLM-format spec, in insertion order.
The constant tool_search_spec field of the Python object is the global
constant tool_search_spec here. -/
structure DynamicToolContext where
  discovered_tools : List (String × ToolSpec) := []

/-- Key membership / lookup in the discovered_tools dict. -/
def lookupTool (n : String) : List (String × ToolSpec) → Option ToolSpec
  | [] => none
  | (k, v) :: rest => if n = k then some v else lookupTool n rest

/-- DynamicToolContext.get_tools_for_llm (modelgate_mcp_demo.py lines
104-108): the tool_search spec followed by the discovered specs in
insertion order. -/
def DynamicToolContext.get_tools_for_llm (c : DynamicToolContext) : List ToolSpec :=
  tool_search_spec :: c.discovered_tools.map (·.2)

/-- The LLM-format spec built for a discovered tool named n
(modelgate_mcp_demo.py lines 125-135): description defaults to "",
parameters defaults to the empty object schema, and input_examples is
present exactly when the raw entry had an "inputExamples" key. -/
def toolSpecOfRaw (n : String) (t : RawTool) : ToolSpec :=
  { type := "function"
    function :=
      { name := n
        description := t.description.getD ""
        parameters := t.inputSchema.getD
          (JsonV.obj [("type", JsonV.str "object"), ("properties", JsonV.obj [])])
        input_examples := t.inputExamples } }

/-- The loop body of DynamicToolContext.add_tools_from_search over the
already-parsed tool list (modelgate_mcp_demo.py lines 121-138): each tool
with a truthy name that is not yet a key of discovered_tools is stored
under its name (appended, preserving dict insertion order) and its name
is collected into the returned added list. -/
def DynamicToolContext.add_tools_parsed :
    List RawTool → DynamicToolContext → DynamicToolContext × List String
  | [], c => (c, [])
  | t :: rest, c =>
    match t.name with
    | some n =>
      if n ≠ "" ∧ (lookupTool n c.discovered_tools).isNone = true then
        let c' : DynamicToolContext := ⟨c.discovered_tools ++ [(n, toolSpecOfRaw n t)]⟩
        let r := DynamicToolContext.add_tools_parsed rest c'
        (r.1, n :: r.2)
      else DynamicToolContext.add_tools_parsed rest c
    | none => DynamicToolContext.add_tools_parsed rest c

/-- DynamicToolContext.add_tools_from_search (modelgate_mcp_demo.py lines
110-141).  The json.loads call on the received text is the oracle
parameter parse; a parse failure (the JSONDecodeError branch) returns the
context unchanged with an empty added list. -/
def DynamicToolContext.add_tools_from_search
    (parse : String → Option SearchResult) (text : String)
    (c : DynamicToolContext) : DynamicToolContext × List String :=
  match parse text with
  | none => (c, [])
  | some r => DynamicToolContext.add_tools_parsed r.tools c

/-- DynamicToolContext.is_known_tool (modelgate_mcp_demo.py lines 143-145). -/
def DynamicToolContext.is_known_tool (c : DynamicToolContext) (n : String) : Bool :=
  n == "tool_search" || (lookupTool n c.discovered_tools).isSome

/-- DynamicToolContext.clear (modelgate_mcp_demo.py lines 147-149). -/
def DynamicToolContext.clear (_c : DynamicToolContext) : DynamicToolContext :=
  ⟨[]⟩

/-- One content block of an MCP tool result, carrying the keys read by
extract_tool_result: block.get("type") and block.get("text", "")
(modelgate_mcp_demo.py lines 322-324). -/
structure ContentBlock where
  type : Option String := none
  text : Option String := none
deriving DecidableEq

/-- An MCP tool result dict as read by the demo script:
result.get("content", []) and result.get("isError")
(modelgate_mcp_demo.py lines 320 and 514). -/
structure ToolResult where
  content : Option (List ContentBlock) := none
  isError : Option Bool := none
deriving DecidableEq

/-- The Python str() rendering of one content-block dict, used by the
str(result) fallback of extract_tool_result.  Present keys are rendered
in the type, text order the scripts build them in. -/
def pyReprBlock (b : ContentBlock) : String :=
  let fields :=
    (match b.type with
     | some t => ["'type': '" ++ t ++ "'"]
     | none => []) ++
    (match b.text with
     | some t => ["'text': '" ++ t ++ "'"]
     | none => [])
  "\x7b" ++ String.intercalate ", " fields ++ "\x7d"

/-- The Python str() rendering of a tool-result dict, the value of
str(result) on modelgate_mcp_demo.py line 325. -/
def pyReprResult (r : ToolResult) : String :=
  let fields :=
    (match r.content with
     | some blocks => ["'content': [" ++ String.intercalate ", " (blocks.map pyReprBlock) ++ "]"]
     | none => []) ++
    (match r.isError with
     | some b => ["'isError': " ++ (if b then "True" else "False")]
     | none => [])
  "\x7b" ++ String.intercalate ", " fields ++ "\x7d"

/-- extract_tool_result (modelgate_mcp_demo.py lines 318-325): collect the
text field of every text-typed content block, in order; join them by
newline when at least one text block exists, otherwise fall back to the
str() rendering of the whole result. -/
def extract_tool_result (r : ToolResult) : String :=
  let content := r.content.getD []
  let texts := (content.filter (fun b => b.type == some "text")).map (fun b => b.text.getD "")
  if texts.isEmpty then pyReprResult r else String.intercalate "\n" texts

/-- The inner function dict of a tool call emitted by the model:
tool_call["function"]["name"] and tool_call["function"]["arguments"]
(the arguments are the serialized JSON text the model produced). -/
structure FnCall where
  name : String
  arguments : String
deriving DecidableEq

/-- One tool call emitted by the model: tool_call["id"] plus the function
payload. -/
structure ToolCall where
  id : String
  function : FnCall
deriving DecidableEq

/-- One conversation message dict.  Absent keys are none / []; the demo
appends user, assistant (with or without tool_calls) and tool messages
(modelgate_mcp_demo.py lines 445, 478, 485-489, 522-527, 532-537). -/
structure Msg where
  role : String
  content : Option String := none
  tool_calls : List ToolCall := []
  tool_call_id : Option String := none
  name : Option String := none
deriving DecidableEq

/-- The message part of one chat choice: message.get("content") and
message.get("tool_calls", []). -/
structure RespMsg where
  content : Option String := none
  tool_calls : List ToolCall := []

/-- One entry of response["choices"]. -/
structure ChatChoice where
  message : RespMsg

/-- A chat-completion response body: response.get("choices") with an
absent or null key embedded as []. -/
structure ChatResponse where
  choices : List ChatChoice := []

/-- The observable outcome of one ModelGateLLMClient.chat call
(modelgate_mcp_demo.py lines 173-206): a parsed response body; a raised
ChatError (the non-ok HTTP response whose JSON body carries an error
field, lines 195-201); or any other raised exception (ConnectionError,
Timeout, the raise_for_status HTTPError, an undecodable body), which the
turn loop of run_chat_session does not catch. -/
inductive ChatOutcome where
  | ok (resp : ChatResponse)
  | chatError (msg : String)
  | raised (e : String)

/-- The observable outcome of one mcp_client.call_tool call inside the
turn loop: a tool result; a raised MCPError with its code and message
(caught on line 529 of modelgate_mcp_demo.py); or any other raised
exception, which the turn loop does not catch. -/
inductive ToolOutcome where
  | ok (result : ToolResult)
  | mcpError (code : Int) (message : String)
  | raised (e : String)

/-- The tool-role message appended for one executed tool call
(modelgate_mcp_demo.py lines 522-527 and 532-537). -/
def toolMsg (tc : ToolCall) (text : String) : Msg :=
  { role := "tool", content := some text,
    tool_call_id := some tc.id, name := some tc.function.name }

/-- The plain-text assistant message appended when the model requests no
tool calls (modelgate_mcp_demo.py lines 476-478): content defaults to ""
for an absent key. -/
def assistantTextMsg (m : RespMsg) : Msg :=
  { role := "assistant", content := some (m.content.getD "") }

/-- The assistant message carrying the requested tool calls
(modelgate_mcp_demo.py lines 485-489). -/
def assistantToolMsg (m : RespMsg) : Msg :=
  { role := "assistant", content := m.content, tool_calls := m.tool_calls }

/-- Result of executing one batch of tool calls: the grown message list
and context, or the state at the point where an uncaught exception left
the loop. -/
inductive ExecResult where
  | ok (msgs : List Msg) (ctx : DynamicToolContext)
  | raised (msgs : List Msg) (ctx : DynamicToolContext) (e : String)

/-- The tool-execution for-loop of run_chat_session (modelgate_mcp_demo.py
lines 492-537): for each tool call in the order the model listed them,
parse its arguments (a parse failure yields the empty dict), execute it
through the gateway oracle toolO, merge a tool_search result into the
context, and append exactly one tool-role message carrying either the
extracted result text or the "Tool error: ..." text of a caught MCPError.
Any other exception leaves the loop at once. -/
def execToolCalls (toolO : String → JsonV → ToolOutcome)
    (parseArgs : String → Option JsonV)
    (parseSearch : String → Option SearchResult) :
    List ToolCall → List Msg → DynamicToolContext → ExecResult
  | [], msgs, ctx => .ok msgs ctx
  | tc :: rest, msgs, ctx =>
    let args := (parseArgs tc.function.arguments).getD (JsonV.obj [])
    match toolO tc.function.name args with
    | .ok result =>
      let text := extract_tool_result result
      let ctx' := if tc.function.name == "tool_search"
        then (DynamicToolContext.add_tools_from_search parseSearch text ctx).1
        else ctx
      execToolCalls toolO parseArgs parseSearch rest (msgs ++ [toolMsg tc text]) ctx'
    | .mcpError _ m =>
      execToolCalls toolO parseArgs parseSearch rest
        (msgs ++ [toolMsg tc ("Tool error: " ++ m)]) ctx
    | .raised e => .raised msgs ctx e

/-- How one user turn of run_chat_session ended: the model answered with
plain text (assistant message appended, break on line 479); the response
carried no choices (break on line 468); a ChatError was caught and the
turn rolled back (lines 460-464); an uncaught exception left the turn
loop; or the iteration ceiling was exhausted. -/
inductive TurnOutcome where
  | finished
  | noChoices
  | rolledBack
  | raised (e : String)
  | ceiling
deriving DecidableEq

/-- The state after one user turn: the conversation, the tool context,
the number of model-chat calls performed, and how the turn ended. -/
structure TurnResult where
  messages : List Msg
  ctx : DynamicToolContext
  modelCalls : Nat
  outcome : TurnOutcome

/-- The bounded tool-call loop of run_chat_session (modelgate_mcp_demo.py
lines 448-540).  chatO gives the outcome of the k-th model-chat call of
the turn (k counted from 0); fuel is the number of loop iterations still
permitted (max_iterations minus iterations done); msgsBefore is the
messages_before_turn snapshot taken before the user message was appended;
calls counts the chat calls made so far.  The ChatError branch truncates
the log to the snapshot (del messages[messages_before_turn:], line 463). -/
def runLoop (chatO : Nat → ChatOutcome) (toolO : String → JsonV → ToolOutcome)
    (parseArgs : String → Option JsonV) (parseSearch : String → Option SearchResult)
    (msgsBefore : Nat) :
    Nat → Nat → List Msg → DynamicToolContext → TurnResult
  | calls, 0, msgs, ctx => ⟨msgs, ctx, calls, .ceiling⟩
  | calls, fuel + 1, msgs, ctx =>
    match chatO calls with
    | .raised e => ⟨msgs, ctx, calls + 1, .raised e⟩
    | .chatError _ => ⟨msgs.take msgsBefore, ctx, calls + 1, .rolledBack⟩
    | .ok resp =>
      match resp.choices with
      | [] => ⟨msgs, ctx, calls + 1, .noChoices⟩
      | choice :: _ =>
        let m := choice.message
        match m.tool_calls with
        | [] =>
          ⟨msgs ++ [assistantTextMsg m], ctx, calls + 1, .finished⟩
        | _ :: _ =>
          let msgs' := msgs ++ [assistantToolMsg m]
          match execToolCalls toolO parseArgs parseSearch m.tool_calls msgs' ctx with
          | .raised ms cx e => ⟨ms, cx, calls + 1, .raised e⟩
          | .ok ms cx =>
            runLoop chatO toolO parseArgs parseSearch msgsBefore (calls + 1) fuel ms cx

/-- One user turn of run_chat_session (modelgate_mcp_demo.py lines
443-540): snapshot the conversation length, append the user message, and
run the tool-call loop with the hard-coded ceiling max_iterations = 10. -/
def runTurn (chatO : Nat → ChatOutcome) (toolO : String → JsonV → ToolOutcome)
    (parseArgs : String → Option JsonV) (parseSearch : String → Option SearchResult)
    (userInput : String) (messages0 : List Msg) (ctx0 : DynamicToolContext) :
    TurnResult :=
  runLoop chatO toolO parseArgs parseSearch messages0.length 0 10
    (messages0 ++ [{ role := "user", content := some userInput }]) ctx0

/-- The tool calls the model requested in chat calls start, start+1, ...,
start+n-1: the tool_calls list of the first choice of each successful
response, nothing for a failed call or an empty choices list. -/
def reqSeg (chatO : Nat → ChatOutcome) : Nat → Nat → List ToolCall
  | _, 0 => []
  | start, n + 1 =>
    (match chatO start with
     | .ok resp =>
       match resp.choices with
       | choice :: _ => choice.message.tool_calls
       | [] => []
     | _ => []) ++ reqSeg chatO (start + 1) n

/-- All tool calls the model requested during a turn of n model calls. -/
def requestedToolCalls (chatO : Nat → ChatOutcome) (n : Nat) : List ToolCall :=
  reqSeg chatO 0 n

/-- A chat outcome that is a successful response whose first choice
requests at least one tool call. -/
def chatReturnsToolCalls (o : ChatOutcome) : Prop :=
  ∃ resp choice rest, o = .ok resp ∧ resp.choices = choice :: rest ∧
    choice.message.tool_calls ≠ []

/-- A tool outcome the turn loop handles (a result or a caught MCPError),
as opposed to an exception that aborts the turn. -/
def toolNoRaise (o : ToolOutcome) : Prop :=
  match o with
  | .raised _ => False
  | _ => True

/-- A turn that ran to completion: the loop ended by a plain-text answer,
an empty choices list, or the iteration ceiling, rather than by a rolled
back ChatError or an uncaught exception. -/
def completedOutcome (o : TurnOutcome) : Prop :=
  match o with
  | .finished => True
  | .noChoices => True
  | .ceiling => True
  | .rolledBack => False
  | .raised _ => False

/-- The error member of a parsed JSON-RPC response body, with its own
code and message keys (either may be absent). -/
structure RpcErrorBody where
  code : Option Int := none
  message : Option String := none

/-- A decoded JSON-RPC response body as the clients read it:
result.get("result", ...) and the error member; none for the error field
covers both an absent key and a falsy (null) value, the two cases the
test "error" in result and result["error"] lets through. -/
structure RpcBody where
  result : Option JsonV := none
  error : Option RpcErrorBody := none

/-- What the HTTP transport did with one posted request: delivered a
response with a status code and a body (none when the body does not
decode as JSON), refused the connection, or timed out. -/
inductive HttpOut where
  | resp (status : Nat) (body : Option RpcBody)
  | connErr
  | timeout

/-- One JSON-RPC request as posted by a client: the assigned id, the
method, and the params member when present. -/
structure SentReq where
  id : Nat
  method : String
  params : Option JsonV

/-- How one client request call returned: the extracted result value, a
raised MCPError with code and message, or some other raised exception
(the clients leave raise_for_status HTTPErrors and body-decode failures
uncaught in some paths). -/
inductive CallResult where
  | ok (r : JsonV)
  | mcpErr (code : Int) (msg : String)
  | raised (e : String)

/-- ModelGateMCPAgent state: the request-id counter, the endpoint string,
the initialization flag and the discovered-tools dict of cleaned raw
descriptors (modelgate_mcp_agent.py lines 42-60). -/
structure ModelGateMCPAgent where
  endpoint : String := "http://localhost:8080/mcp"
  request_id : Nat := 0
  inited : Bool := false
  discovered_tools : List (String × JsonV) := []

/-- Key lookup in the agent discovered_tools dict. -/
def lookupJson (n : String) : List (String × JsonV) → Option JsonV
  | [] => none
  | (k, v) :: rest => if n = k then some v else lookupJson n rest

/-- ModelGateMCPAgent._send_request (modelgate_mcp_agent.py lines
91-122): bump the id, post the payload, and map the outcome.  Any HTTP
error status (401 and 404 included) becomes MCPError(-1, "HTTP error:
..."), a connection failure or timeout becomes MCPError(-1, ...), an
error member of a decoded body is surfaced with its own code and message
defaults, and a body that fails to decode raises out of the client
uncaught.  Returns the call result, the new state, and the list of
requests that reached the transport. -/
def agentSendRequest (tr : SentReq → HttpOut) (st : ModelGateMCPAgent)
    (method : String) (params : Option JsonV) :
    CallResult × ModelGateMCPAgent × List SentReq :=
  let rid := st.request_id + 1
  let st' := { st with request_id := rid }
  let req : SentReq := ⟨rid, method, params⟩
  match tr req with
  | .connErr => (.mcpErr (-1) ("Failed to connect to " ++ st.endpoint), st', [req])
  | .timeout => (.mcpErr (-1) "Request timed out", st', [req])
  | .resp status body =>
    if 400 ≤ status then
      (.mcpErr (-1) ("HTTP error: " ++ toString status), st', [req])
    else
      match body with
      | none => (.raised "JSONDecodeError", st', [req])
      | some b =>
        match b.error with
        | some err => (.mcpErr (err.code.getD (-1)) (err.message.getD "Unknown error"), st', [req])
        | none => (.ok (b.result.getD (JsonV.obj [])), st', [req])

/-- ModelGateMCPAgent.call_tool (modelgate_mcp_agent.py lines 232-254):
fail locally when not initialized; fail locally with the not-in-context
MCPError when the name is neither tool_search nor a discovered key; and
only otherwise send the tools/call request. -/
def agentCallTool (tr : SentReq → HttpOut) (st : ModelGateMCPAgent)
    (name : String) (arguments : Option JsonV) :
    CallResult × ModelGateMCPAgent × List SentReq :=
  if st.inited = false then
    (.mcpErr (-1) "Must call initialize() first", st, [])
  else if name ≠ "tool_search" ∧ (lookupJson name st.discovered_tools).isNone = true then
    (.mcpErr (-1) ("Tool '" ++ name ++ "' not in context. Use search_tools() to discover it first."),
      st, [])
  else
    agentSendRequest tr st "tools/call"
      (some (JsonV.obj [("name", JsonV.str name), ("arguments", arguments.getD (JsonV.obj []))]))

/-- ModelGateMCPClient state (modelgate_mcp_demo.py lines 217-231). -/
structure ModelGateMCPClient where
  endpoint : String := "http://localhost:8080/mcp"
  request_id : Nat := 0
  inited : Bool := false
  server_info : JsonV := JsonV.obj []

/-- ModelGateMCPClient._request (modelgate_mcp_demo.py lines 237-272):
bump the id, post the payload, map status 401 to MCPError -32001 and 404
to -32002 before raise_for_status, map a connection failure and a timeout
each to MCPError -1, surface a decoded error member with its own code and
message, and return result.get("result", ...) otherwise.  Any other
error status raises HTTPError uncaught, and an undecodable body raises
uncaught. -/
def demoRequest (tr : SentReq → HttpOut) (st : ModelGateMCPClient)
    (method : String) (params : Option JsonV) :
    CallResult × ModelGateMCPClient × List SentReq :=
  let rid := st.request_id + 1
  let st' := { st with request_id := rid }
  let req : SentReq := ⟨rid, method, params⟩
  match tr req with
  | .connErr => (.mcpErr (-1) ("Cannot connect to MCP Gateway at " ++ st.endpoint), st', [req])
  | .timeout => (.mcpErr (-1) "MCP Gateway request timed out", st', [req])
  | .resp status body =>
    if status = 401 then
      (.mcpErr (-32001) "MCP Gateway authentication failed - check your API key", st', [req])
    else if status = 404 then
      (.mcpErr (-32002) "MCP Gateway not available - ensure ModelGate is running", st', [req])
    else if 400 ≤ status then
      (.raised "HTTPError", st', [req])
    else
      match body with
      | none => (.raised "JSONDecodeError", st', [req])
      | some b =>
        match b.error with
        | some err => (.mcpErr (err.code.getD (-1)) (err.message.getD "Unknown error"), st', [req])
        | none => (.ok (b.result.getD (JsonV.obj [])), st', [req])

/-- The params dict of ModelGateMCPClient.initialize
(modelgate_mcp_demo.py lines 276-280). -/
def demoInitParams : JsonV :=
  JsonV.obj
    [ ("protocolVersion", JsonV.str "2024-11-05"),
      ("capabilities", JsonV.obj [("tools", JsonV.obj [])]),
      ("clientInfo", JsonV.obj
        [ ("name", JsonV.str "ModelGate-MCP-Chat"),
          ("version", JsonV.str "1.0.0") ]) ]

/-- ModelGateMCPClient.initialize (modelgate_mcp_demo.py lines 274-284):
send the initialize request and, on success, set the flag and record
result.get("serverInfo", ...). -/
def demoInitCall (tr : SentReq → HttpOut) (st : ModelGateMCPClient) :
    CallResult × ModelGateMCPClient × List SentReq :=
  match demoRequest tr st "initialize" (some demoInitParams) with
  | (.ok r, st', sent) =>
    let info := match r with
      | JsonV.obj fields => (lookupField "serverInfo" fields).getD (JsonV.obj [])
      | _ => JsonV.obj []
    (.ok r, { st' with inited := true, server_info := info }, sent)
  | other => other

/-- ModelGateMCPClient.call_tool (modelgate_mcp_demo.py lines 286-294):
initialize first when needed (an initialize failure propagates), then
send the tools/call request without any context check. -/
def demoCallTool (tr : SentReq → HttpOut) (st : ModelGateMCPClient)
    (name : String) (arguments : Option JsonV) :
    CallResult × ModelGateMCPClient × List SentReq :=
  let params := JsonV.obj [("name", JsonV.str name), ("arguments", arguments.getD (JsonV.obj []))]
  if st.inited = true then
    demoRequest tr st "tools/call" (some params)
  else
    match demoInitCall tr st with
    | (.ok _, st1, sent1) =>
      let (r, st2, sent2) := demoRequest tr st1 "tools/call" (some params)
      (r, st2, sent1 ++ sent2)
    | (err, st1, sent1) => (err, st1, sent1)

/-- MCPBridge._error_response (claude_mcp_bridge.py lines 144-153): the
JSON-RPC error envelope dict, with a missing request id rendered null. -/
def errorResponse (rid : Option JsonV) (code : Int) (message : String) : JsonV :=
  JsonV.obj
    [ ("jsonrpc", JsonV.str "2.0"),
      ("id", rid.getD JsonV.null),
      ("error", JsonV.obj
        [ ("code", JsonV.int code),
          ("message", JsonV.str message) ]) ]

/-- What the HTTP transport did with one bridge-forwarded request; the
bridge returns whole response bodies, so a decoded body is a JsonV. -/
inductive BridgeHttpOut where
  | resp (status : Nat) (body : Option JsonV)
  | connErr
  | timeout

/-- MCPBridge.forward_request (claude_mcp_bridge.py lines 89-142) for a
request dict req whose transport outcome is out: status 401 maps to code
-32001, status 404 to -32002, a connection failure to -32003, a timeout
to -32004, any other error status (the raise_for_status HTTPError) to
-32005, an undecodable body to -32006, and a decoded body is returned
verbatim.  The endpoint string names the bridge target in the -32003
message; the error envelope carries request.get("id"). -/
def forwardRequest (endpoint : String) (req : List (String × JsonV))
    (out : BridgeHttpOut) : JsonV :=
  let rid := lookupField "id" req
  match out with
  | .connErr => errorResponse rid (-32003) ("Failed to connect to ModelGate at " ++ endpoint)
  | .timeout => errorResponse rid (-32004) "Request timed out"
  | .resp status body =>
    if status = 401 then
      errorResponse rid (-32001) "Authentication failed. Check your API key."
    else if status = 404 then
      errorResponse rid (-32002) "MCP endpoint not found. Ensure ModelGate is running."
    else if 400 ≤ status then
      errorResponse rid (-32005) ("HTTP error: " ++ toString status)
    else
      match body with
      | none => errorResponse rid (-32006) "Invalid JSON response from server"
      | some v => v

/-- One line read from the bridge stdin, after the strip on line 160 of
claude_mcp_bridge.py: empty, not valid JSON (the raw text is kept for
reference), or a parsed JSON-RPC request dict. -/
inductive InputLine where
  | blank
  | malformed (raw : String)
  | request (req : List (String × JsonV))

/-- MCPBridge.run (claude_mcp_bridge.py lines 155-184): read lines until
stdin ends; skip blank lines; emit the -32700 parse-error envelope with a
null id for a line that is not valid JSON and keep reading; forward a
parsed request over the transport oracle and emit the mapped response.
The returned list is everything printed to stdout, in order. -/
def bridgeRun (endpoint : String) (tr : List (String × JsonV) → BridgeHttpOut) :
    List InputLine → List JsonV
  | [] => []
  | .blank :: rest => bridgeRun endpoint tr rest
  | .malformed _ :: rest =>
    errorResponse none (-32700) "Parse error" :: bridgeRun endpoint tr rest
  | .request req :: rest =>
    forwardRequest endpoint req (tr req) :: bridgeRun endpoint tr rest

/-! Helper lemmas about the tool-execution loop and the turn loop. -/

/-- Every message the tool-execution loop appends before an uncaught
exception is a tool-role message. -/
theorem execToolCalls_raised {toolO pa ps} :
    ∀ {tcs : List ToolCall} {msgs : List Msg} {ctx : DynamicToolContext}
      {ms : List Msg} {cx : DynamicToolContext} {e : String},
      execToolCalls toolO pa ps tcs msgs ctx = .raised ms cx e →
      ∃ ex, ms = msgs ++ ex ∧ ∀ m ∈ ex, m.role = "tool" := by
  intro tcs
  induction tcs with
  | nil =>
    intro msgs ctx ms cx e h
    simp [execToolCalls] at h
  | cons tc rest ih =>
    intro msgs ctx ms cx e h
    simp only [execToolCalls] at h
    cases hto : toolO tc.function.name ((pa tc.function.arguments).getD (JsonV.obj [])) with
    | ok result =>
      rw [hto] at h
      obtain ⟨ex, hex, hall⟩ := ih h
      exact ⟨toolMsg tc (extract_tool_result result) :: ex, by simp [hex, toolMsg],
        by intro m hm; rcases List.mem_cons.mp hm with h' | h' <;> [exact h' ▸ rfl; exact hall m h']⟩
    | mcpError code m =>
      rw [hto] at h
      obtain ⟨ex, hex, hall⟩ := ih h
      exact ⟨toolMsg tc ("Tool error: " ++ m) :: ex, by simp [hex, toolMsg],
        by intro m' hm; rcases List.mem_cons.mp hm with h' | h' <;> [exact h' ▸ rfl; exact hall m' h']⟩
    | raised e' =>
      rw [hto] at h
      cases h
      exact ⟨[], by simp, by intro m hm; cases hm⟩

/-- When the tool-execution loop finishes without an exception, it has
appended exactly one tool-role message per tool call, in order, carrying
the id of the call it answers. -/
theorem execToolCalls_ok {toolO pa ps} :
    ∀ {tcs : List ToolCall} {msgs : List Msg} {ctx : DynamicToolContext}
      {ms : List Msg} {cx : DynamicToolContext},
      execToolCalls toolO pa ps tcs msgs ctx = .ok ms cx →
      ∃ tms, ms = msgs ++ tms ∧
        tms.map (·.tool_call_id) = tcs.map (fun tc => some tc.id) ∧
        ∀ m ∈ tms, m.role = "tool" := by
  intro tcs
  induction tcs with
  | nil =>
    intro msgs ctx ms cx h
    simp only [execToolCalls] at h
    cases h
    exact ⟨[], by simp, by simp, by intro m hm; cases hm⟩
  | cons tc rest ih =>
    intro msgs ctx ms cx h
    simp only [execToolCalls] at h
    cases hto : toolO tc.function.name ((pa tc.function.arguments).getD (JsonV.obj [])) with
    | ok result =>
      rw [hto] at h
      obtain ⟨tms, hex, hids, hall⟩ := ih h
      refine ⟨toolMsg tc (extract_tool_result result) :: tms, by simp [hex], ?_, ?_⟩
      · simp [toolMsg, hids]
      · intro m hm
        rcases List.mem_cons.mp hm with h' | h' <;> [exact h' ▸ rfl; exact hall m h']
    | mcpError code m =>
      rw [hto] at h
      obtain ⟨tms, hex, hids, hall⟩ := ih h
      refine ⟨toolMsg tc ("Tool error: " ++ m) :: tms, by simp [hex], ?_, ?_⟩
      · simp [toolMsg, hids]
      · intro m' hm
        rcases List.mem_cons.mp hm with h' | h' <;> [exact h' ▸ rfl; exact hall m' h']
    | raised e' =>
      rw [hto] at h
      cases h

/-- When no tool call raises an uncaught exception, the tool-execution
loop always finishes. -/
theorem execToolCalls_total {toolO : String → JsonV → ToolOutcome} {pa ps}
    (hno : ∀ n a, toolNoRaise (toolO n a)) :
    ∀ (tcs : List ToolCall) (msgs : List Msg) (ctx : DynamicToolContext),
      ∃ ms cx, execToolCalls toolO pa ps tcs msgs ctx = .ok ms cx := by
  intro tcs
  induction tcs with
  | nil => intro msgs ctx; exact ⟨msgs, ctx, rfl⟩
  | cons tc rest ih =>
    intro msgs ctx
    simp only [execToolCalls]
    cases hto : toolO tc.function.name ((pa tc.function.arguments).getD (JsonV.obj [])) with
    | ok result => exact ih _ _
    | mcpError code m => exact ih _ _
    | raised e' =>
      exact absurd (hno tc.function.name ((pa tc.function.arguments).getD (JsonV.obj [])))
        (by rw [hto]; exact fun h => h)

/-- The turn loop performs at most as many model calls as it has fuel. -/
theorem runLoop_calls_le {chatO toolO pa ps msgsBefore} :
    ∀ (fuel calls : Nat) (msgs : List Msg) (ctx : DynamicToolContext),
      (runLoop chatO toolO pa ps msgsBefore calls fuel msgs ctx).modelCalls ≤ calls + fuel := by
  intro fuel
  induction fuel with
  | zero => intro calls msgs ctx; simp [runLoop]
  | succ fuel ih =>
    intro calls msgs ctx
    simp only [runLoop]
    split
    · dsimp only; omega
    · dsimp only; omega
    · split
      · dsimp only; omega
      · split
        · dsimp only; omega
        · split
          · dsimp only; omega
          · exact Nat.le_trans (ih _ _ _) (by omega)

/-- A rolled-back turn leaves the log truncated to the snapshot taken
before the turn. -/
theorem runLoop_rolledBack {chatO toolO pa ps msgsBefore} :
    ∀ (fuel calls : Nat) (msgs : List Msg) (ctx : DynamicToolContext),
      msgsBefore ≤ msgs.length →
      (runLoop chatO toolO pa ps msgsBefore calls fuel msgs ctx).outcome = TurnOutcome.rolledBack →
      (runLoop chatO toolO pa ps msgsBefore calls fuel msgs ctx).messages = msgs.take msgsBefore := by
  intro fuel
  induction fuel with
  | zero => intro calls msgs ctx h1 h2; simp [runLoop] at h2
  | succ fuel ih =>
    intro calls msgs ctx h1 h2
    simp only [runLoop] at h2 ⊢
    cases hchat : chatO calls with
    | raised e => rw [hchat] at h2; simp at h2
    | chatError m => rfl
    | ok resp =>
      rw [hchat] at h2
      dsimp only at h2 ⊢
      cases hc : resp.choices with
      | nil => rw [hc] at h2; simp at h2
      | cons choice rest =>
        rw [hc] at h2
        dsimp only at h2 ⊢
        cases ht : choice.message.tool_calls with
        | nil => rw [ht] at h2; simp at h2
        | cons tc tcs =>
          rw [ht] at h2
          dsimp only at h2 ⊢
          cases he : execToolCalls toolO pa ps (tc :: tcs)
              (msgs ++ [assistantToolMsg choice.message]) ctx with
          | raised ms cx e => rw [he] at h2; simp at h2
          | ok ms cx =>
            rw [he] at h2
            dsimp only at h2 ⊢
            obtain ⟨tms, hms, -, -⟩ := execToolCalls_ok he
            have hlen : msgsBefore ≤ ms.length := by
              rw [hms]; simp; omega
            rw [ih (calls + 1) ms cx hlen h2, hms,
              List.take_append_eq_append_take, List.take_append_eq_append_take,
              Nat.sub_eq_zero_of_le h1,
              Nat.sub_eq_zero_of_le (le_trans h1 (by simp))]
            simp

/-- Unless the turn was rolled back, the turn loop only ever appends:
the starting log is a prefix of the final log. -/
theorem runLoop_shape {chatO toolO pa ps msgsBefore} :
    ∀ (fuel calls : Nat) (msgs : List Msg) (ctx : DynamicToolContext),
      msgsBefore ≤ msgs.length →
      ((runLoop chatO toolO pa ps msgsBefore calls fuel msgs ctx).outcome = TurnOutcome.rolledBack ∧
        (runLoop chatO toolO pa ps msgsBefore calls fuel msgs ctx).messages = msgs.take msgsBefore)
      ∨ ∃ ex, (runLoop chatO toolO pa ps msgsBefore calls fuel msgs ctx).messages = msgs ++ ex := by
  intro fuel
  induction fuel with
  | zero => intro calls msgs ctx _; exact Or.inr ⟨[], by simp [runLoop]⟩
  | succ fuel ih =>
    intro calls msgs ctx h1
    simp only [runLoop]
    cases hchat : chatO calls with
    | raised e => exact Or.inr ⟨[], by simp⟩
    | chatError m => exact Or.inl ⟨rfl, rfl⟩
    | ok resp =>
      dsimp only
      cases hc : resp.choices with
      | nil => exact Or.inr ⟨[], by simp⟩
      | cons choice rest =>
        dsimp only
        cases ht : choice.message.tool_calls with
        | nil => exact Or.inr ⟨[assistantTextMsg choice.message], rfl⟩
        | cons tc tcs =>
          dsimp only
          cases he : execToolCalls toolO pa ps (tc :: tcs)
              (msgs ++ [assistantToolMsg choice.message]) ctx with
          | raised ms cx e =>
            dsimp only
            obtain ⟨ex, hex, -⟩ := execToolCalls_raised he
            exact Or.inr ⟨assistantToolMsg choice.message :: ex, by rw [hex]; simp⟩
          | ok ms cx =>
            dsimp only
            obtain ⟨ex1, hex1, -, -⟩ := execToolCalls_ok he
            have hlen : msgsBefore ≤ ms.length := by
              rw [hex1]; simp; omega
            rcases ih (calls + 1) ms cx hlen with ⟨hout, hmsg⟩ | ⟨ex2, hex2⟩
            · refine Or.inl ⟨hout, ?_⟩
              rw [hmsg, hex1,
                List.take_append_eq_append_take, List.take_append_eq_append_take,
                Nat.sub_eq_zero_of_le h1,
                Nat.sub_eq_zero_of_le (le_trans h1 (by simp))]
              simp
            · exact Or.inr ⟨assistantToolMsg choice.message :: (ex1 ++ ex2),
                by rw [hex2, hex1]; simp⟩

/-- A completed run of the turn loop appends, among other messages,
exactly one tool-role message per requested tool call, in request order,
each carrying the id of the call it answers. -/
theorem runLoop_completed_toolMsgs {chatO toolO pa ps msgsBefore} :
    ∀ (fuel calls : Nat) (msgs : List Msg) (ctx : DynamicToolContext),
      completedOutcome (runLoop chatO toolO pa ps msgsBefore calls fuel msgs ctx).outcome →
      ∃ ex k, (runLoop chatO toolO pa ps msgsBefore calls fuel msgs ctx).messages = msgs ++ ex ∧
        (runLoop chatO toolO pa ps msgsBefore calls fuel msgs ctx).modelCalls = calls + k ∧
        ((ex.filter (fun m => m.role == "tool")).map (·.tool_call_id)
          = (reqSeg chatO calls k).map (fun tc => some tc.id)) := by
  intro fuel
  induction fuel with
  | zero =>
    intro calls msgs ctx _
    exact ⟨[], 0, by simp [runLoop], by simp [runLoop], by simp [reqSeg]⟩
  | succ fuel ih =>
    intro calls msgs ctx hco
    simp only [runLoop] at hco ⊢
    cases hchat : chatO calls with
    | raised e => rw [hchat] at hco; simp [completedOutcome] at hco
    | chatError m => rw [hchat] at hco; simp [completedOutcome] at hco
    | ok resp =>
      rw [hchat] at hco
      dsimp only at hco ⊢
      cases hc : resp.choices with
      | nil =>
        refine ⟨[], 1, by simp, by simp, ?_⟩
        simp [reqSeg, hchat, hc]
      | cons choice rest =>
        rw [hc] at hco
        dsimp only at hco ⊢
        cases ht : choice.message.tool_calls with
        | nil =>
          refine ⟨[assistantTextMsg choice.message], 1, rfl, by simp, ?_⟩
          simp [reqSeg, hchat, hc, ht, assistantTextMsg]
        | cons tc tcs =>
          rw [ht] at hco
          dsimp only at hco ⊢
          cases he : execToolCalls toolO pa ps (tc :: tcs)
              (msgs ++ [assistantToolMsg choice.message]) ctx with
          | raised ms cx e => rw [he] at hco; simp [completedOutcome] at hco
          | ok ms cx =>
            rw [he] at hco
            dsimp only at hco ⊢
            obtain ⟨tms, hms, hids, hroles⟩ := execToolCalls_ok he
            obtain ⟨ex2, k2, hmsg2, hcalls2, hfilter2⟩ := ih (calls + 1) ms cx hco
            refine ⟨assistantToolMsg choice.message :: (tms ++ ex2), k2 + 1, ?_, ?_, ?_⟩
            · rw [hmsg2, hms]; simp
            · rw [hcalls2]; omega
            · have hstep : reqSeg chatO calls (k2 + 1)
                  = (tc :: tcs) ++ reqSeg chatO (calls + 1) k2 := by
                simp [reqSeg, hchat, hc, ht]
              rw [hstep]
              have htms : tms.filter (fun m => m.role == "tool") = tms :=
                List.filter_eq_self.mpr (by
                  intro m hm
                  simp [hroles m hm])
              have hassist : ((assistantToolMsg choice.message).role == "tool") = false := by
                simp [assistantToolMsg]
              simp [List.filter_cons, hassist, List.filter_append, htms,
                List.map_append, hids, hfilter2]

/-- When no tool call raises, the tool-execution loop appends only
tool-role messages and finishes. -/
theorem execToolCalls_noRaise {toolO : String → JsonV → ToolOutcome} {pa ps}
    (hno : ∀ n a, toolNoRaise (toolO n a)) :
    ∀ (tcs : List ToolCall) (msgs : List Msg) (ctx : DynamicToolContext),
      ∃ tms cx, execToolCalls toolO pa ps tcs msgs ctx = .ok (msgs ++ tms) cx ∧
        ∀ m ∈ tms, m.role = "tool" := by
  intro tcs msgs ctx
  obtain ⟨ms, cx, hok⟩ := execToolCalls_total hno tcs msgs ctx
  obtain ⟨tms, hms, -, hroles⟩ := execToolCalls_ok hok
  exact ⟨tms, cx, hms ▸ hok, hroles⟩

/-- When every model call requests tool calls and no tool call raises,
the turn loop consumes all its fuel, ends at the ceiling, and appends
only tool-role messages and assistant messages that carry tool calls. -/
theorem runLoop_ceiling {chatO toolO pa ps msgsBefore}
    (hchat : ∀ k, chatReturnsToolCalls (chatO k))
    (hno : ∀ n a, toolNoRaise (toolO n a)) :
    ∀ (fuel calls : Nat) (msgs : List Msg) (ctx : DynamicToolContext),
      ∃ ex, (runLoop chatO toolO pa ps msgsBefore calls fuel msgs ctx).messages = msgs ++ ex ∧
        (runLoop chatO toolO pa ps msgsBefore calls fuel msgs ctx).modelCalls = calls + fuel ∧
        (runLoop chatO toolO pa ps msgsBefore calls fuel msgs ctx).outcome = TurnOutcome.ceiling ∧
        ∀ m ∈ ex, m.role = "tool" ∨ m.tool_calls ≠ [] := by
  intro fuel
  induction fuel with
  | zero =>
    intro calls msgs ctx
    exact ⟨[], by simp [runLoop], by simp [runLoop], by simp [runLoop],
      by intro m hm; cases hm⟩
  | succ fuel ih =>
    intro calls msgs ctx
    obtain ⟨resp, choice, rest, h1, h2, h3⟩ := hchat calls
    simp only [runLoop]
    rw [h1]
    dsimp only
    rw [h2]
    dsimp only
    cases ht : choice.message.tool_calls with
    | nil => exact absurd ht h3
    | cons tc tcs =>
      dsimp only
      obtain ⟨tms, cx, hok, hroles⟩ :=
        execToolCalls_noRaise hno (tc :: tcs) (msgs ++ [assistantToolMsg choice.message]) ctx
      rw [hok]
      dsimp only
      obtain ⟨ex2, hmsg2, hcalls2, hout2, hprops2⟩ := ih (calls + 1)
        ((msgs ++ [assistantToolMsg choice.message]) ++ tms) cx
      refine ⟨assistantToolMsg choice.message :: (tms ++ ex2), ?_, ?_, hout2, ?_⟩
      · rw [hmsg2]; simp
      · rw [hcalls2]; omega
      · intro m hm
        rcases List.mem_cons.mp hm with h' | h'
        · subst h'
          right
          simp [assistantToolMsg, ht]
        · rcases List.mem_append.mp h' with h'' | h''
          · exact Or.inl (hroles m h'')
          · exact hprops2 m h''

/-! Helper lemmas about the discovered-tools dict and the merge loop. -/

theorem lookupTool_append_of_isSome {n : String} {l : List (String × ToolSpec)}
    (h : (lookupTool n l).isSome = true) (l2 : List (String × ToolSpec)) :
    lookupTool n (l ++ l2) = lookupTool n l := by
  induction l with
  | nil => simp [lookupTool] at h
  | cons p rest ih =>
    by_cases hn : n = p.1
    · simp [lookupTool, hn]
    · simp only [lookupTool, if_neg hn] at h ⊢
      exact ih h

theorem lookupTool_append_self {n : String} {l : List (String × ToolSpec)}
    (h : lookupTool n l = none) (v : ToolSpec) :
    lookupTool n (l ++ [(n, v)]) = some v := by
  induction l with
  | nil => simp [lookupTool]
  | cons p rest ih =>
    by_cases hn : n = p.1
    · simp [lookupTool, hn] at h
    · simp only [lookupTool, if_neg hn] at h ⊢
      exact ih h

theorem lookupTool_append_other {n m : String} (hnm : n ≠ m)
    (l : List (String × ToolSpec)) (v : ToolSpec) :
    lookupTool n (l ++ [(m, v)]) = lookupTool n l := by
  induction l with
  | nil => simp [lookupTool, hnm]
  | cons p rest ih =>
    by_cases hn : n = p.1
    · simp [lookupTool, hn]
    · simp only [lookupTool, if_neg hn]
      exact ih

/-- The merge loop never removes a stored tool. -/
theorem add_tools_parsed_preserves {n : String} :
    ∀ (ts : List RawTool) (c : DynamicToolContext),
      (lookupTool n c.discovered_tools).isSome = true →
      (lookupTool n (DynamicToolContext.add_tools_parsed ts c).1.discovered_tools).isSome = true := by
  intro ts
  induction ts with
  | nil => intro c h; exact h
  | cons t rest ih =>
    intro c h
    simp only [DynamicToolContext.add_tools_parsed]
    cases t.name with
    | none => exact ih c h
    | some m =>
      dsimp only
      split
      · exact ih _ (by rw [lookupTool_append_of_isSome h]; exact h)
      · exact ih c h

/-- After the merge loop, every entry of the merged list with a truthy
name is stored. -/
theorem add_tools_parsed_mem {n : String} (hn : n ≠ "") :
    ∀ (ts : List RawTool) (c : DynamicToolContext) (t : RawTool),
      t ∈ ts → t.name = some n →
      (lookupTool n (DynamicToolContext.add_tools_parsed ts c).1.discovered_tools).isSome = true := by
  intro ts
  induction ts with
  | nil => intro c t ht; cases ht
  | cons t0 rest ih =>
    intro c t hmem hname
    rcases List.mem_cons.mp hmem with rfl | hmem'
    · simp only [DynamicToolContext.add_tools_parsed, hname]
      split
      · rename_i hcond
        apply add_tools_parsed_preserves
        rw [lookupTool_append_self (Option.isNone_iff_eq_none.mp hcond.2)]
        rfl
      · rename_i hcond
        rw [Decidable.not_and_iff_or_not] at hcond
        rcases hcond with h' | h'
        · exact absurd hn (by simpa using h')
        · apply add_tools_parsed_preserves
          rw [Option.isSome_iff_ne_none]
          simpa [Option.isNone_iff_eq_none] using h'
    · simp only [DynamicToolContext.add_tools_parsed]
      cases hnm : t0.name with
      | none => exact ih c t hmem' hname
      | some m =>
        dsimp only
        split
        · exact ih _ t hmem' hname
        · exact ih c t hmem' hname

/-- The merge loop is a no-op when every truthy name of the merged list
is already stored. -/
theorem add_tools_parsed_noop :
    ∀ (ts : List RawTool) (c : DynamicToolContext),
      (∀ t ∈ ts, ∀ n, t.name = some n → n ≠ "" →
        (lookupTool n c.discovered_tools).isSome = true) →
      DynamicToolContext.add_tools_parsed ts c = (c, []) := by
  intro ts
  induction ts with
  | nil => intro c _; rfl
  | cons t rest ih =>
    intro c h
    simp only [DynamicToolContext.add_tools_parsed]
    cases hnm : t.name with
    | none => exact ih c (fun t' ht' => h t' (List.mem_cons_of_mem _ ht'))
    | some m =>
      dsimp only
      split
      · rename_i hcond
        have := h t (List.mem_cons_self _ _) m hnm hcond.1
        rw [Option.isSome_iff_ne_none] at this
        exact absurd (Option.isNone_iff_eq_none.mp hcond.2) this
      · exact ih c (fun t' ht' => h t' (List.mem_cons_of_mem _ ht'))

theorem countP_key_zero_of_lookup_none {n : String} :
    ∀ {l : List (String × ToolSpec)}, lookupTool n l = none →
      l.countP (fun p => p.1 == n) = 0 := by
  intro l
  induction l with
  | nil => intro _; rfl
  | cons p rest ih =>
    intro h
    by_cases hn : n = p.1
    · simp [lookupTool, hn] at h
    · simp only [lookupTool, if_neg hn] at h
      have hpn : ¬ p.1 = n := fun he => hn he.symm
      simp [List.countP_cons, ih h, hpn]

theorem add_tools_parsed_countP_of_isSome {n : String} :
    ∀ (ts : List RawTool) (c : DynamicToolContext),
      (lookupTool n c.discovered_tools).isSome = true →
      (DynamicToolContext.add_tools_parsed ts c).1.discovered_tools.countP (fun p => p.1 == n)
        = c.discovered_tools.countP (fun p => p.1 == n) := by
  intro ts
  induction ts with
  | nil => intro c _; rfl
  | cons t rest ih =>
    intro c h
    simp only [DynamicToolContext.add_tools_parsed]
    cases hnm : t.name with
    | none => exact ih c h
    | some m =>
      dsimp only
      split
      · rename_i hcond
        have hmn : m ≠ n := by
          intro he
          rw [he] at hcond
          rw [Option.isSome_iff_ne_none] at h
          exact h (Option.isNone_iff_eq_none.mp hcond.2)
        have hpres : (lookupTool n (c.discovered_tools ++ [(m, toolSpecOfRaw m t)])).isSome = true := by
          rw [lookupTool_append_other (fun he => hmn he.symm)]
          exact h
        rw [ih _ hpres]
        simp [List.countP_append, List.countP_cons, hmn]
      · exact ih c h

theorem add_tools_parsed_countP_one {n : String} (hn : n ≠ "") :
    ∀ (ts : List RawTool) (c : DynamicToolContext),
      (∃ t ∈ ts, t.name = some n) →
      lookupTool n c.discovered_tools = none →
      (DynamicToolContext.add_tools_parsed ts c).1.discovered_tools.countP (fun p => p.1 == n)
        = 1 := by
  intro ts
  induction ts with
  | nil => intro c hex _; simp at hex
  | cons t rest ih =>
    intro c hex hnone
    simp only [DynamicToolContext.add_tools_parsed]
    cases hnm : t.name with
    | none =>
      rcases hex with ⟨t', ht', hname⟩
      rcases List.mem_cons.mp ht' with rfl | hmem'
      · rw [hnm] at hname; cases hname
      · exact ih c ⟨t', hmem', hname⟩ hnone
    | some m =>
      dsimp only
      split
      · rename_i hcond
        by_cases hmn : m = n
        · subst hmn
          have hcount : (c.discovered_tools ++ [(m, toolSpecOfRaw m t)]).countP
              (fun p => p.1 == m) = 1 := by
            simp [List.countP_append, List.countP_cons,
              countP_key_zero_of_lookup_none hnone]
          have hsome : (lookupTool m (c.discovered_tools ++ [(m, toolSpecOfRaw m t)])).isSome
              = true := by
            rw [lookupTool_append_self hnone]; rfl
          rw [add_tools_parsed_countP_of_isSome rest _ hsome]
          exact hcount
        · have hnone' : lookupTool n (c.discovered_tools ++ [(m, toolSpecOfRaw m t)]) = none := by
            rw [lookupTool_append_other (fun he => hmn he.symm)]
            exact hnone
          rcases hex with ⟨t', ht', hname⟩
          rcases List.mem_cons.mp ht' with rfl | hmem'
          · rw [hnm] at hname
            exact absurd (by injection hname) (fun h => hmn h)
          · exact ih _ ⟨t', hmem', hname⟩ hnone'
      · rename_i hcond
        rcases hex with ⟨t', ht', hname⟩
        rcases List.mem_cons.mp ht' with rfl | hmem'
        · rw [hnm] at hname
          have hmn : m = n := by injection hname
          subst hmn
          exact absurd ⟨hn, by simp [Option.isNone_iff_eq_none, hnone]⟩ hcond
        · exact ih c ⟨t', hmem', hname⟩ hnone

theorem add_tools_parsed_WF :
    ∀ (ts : List RawTool) (c : DynamicToolContext),
      (∀ p ∈ c.discovered_tools, p.2.function.name = p.1) →
      ∀ p ∈ (DynamicToolContext.add_tools_parsed ts c).1.discovered_tools,
        p.2.function.name = p.1 := by
  intro ts
  induction ts with
  | nil => intro c h; exact h
  | cons t rest ih =>
    intro c h
    simp only [DynamicToolContext.add_tools_parsed]
    cases hnm : t.name with
    | none => exact ih c h
    | some m =>
      dsimp only
      split
      · apply ih
        intro p hp
        rcases List.mem_append.mp hp with h' | h'
        · exact h p h'
        · rcases List.mem_singleton.mp h' with rfl
          rfl
      · exact ih c h

theorem countP_map_snd_of_WF {n : String} :
    ∀ {l : List (String × ToolSpec)},
      (∀ p ∈ l, p.2.function.name = p.1) →
      (l.map (·.2)).countP (fun t => t.function.name == n)
        = l.countP (fun p => p.1 == n) := by
  intro l
  induction l with
  | nil => intro _; rfl
  | cons p rest ih =>
    intro h
    have hp := h p (List.mem_cons_self _ _)
    simp only [List.map_cons, List.countP_cons, hp]
    rw [ih (fun q hq => h q (List.mem_cons_of_mem _ hq))]

theorem add_tools_parsed_mem_characterization :
    ∀ (ts : List RawTool) (c : DynamicToolContext)
      (p : String × ToolSpec),
      p ∈ (DynamicToolContext.add_tools_parsed ts c).1.discovered_tools →
      p ∈ c.discovered_tools ∨ (p.1 ≠ "" ∧ ∃ t ∈ ts, t.name = some p.1) := by
  intro ts
  induction ts with
  | nil => intro c p h; exact Or.inl h
  | cons t rest ih =>
    intro c p h
    simp only [DynamicToolContext.add_tools_parsed] at h
    cases hnm : t.name with
    | none =>
      rw [hnm] at h
      rcases ih c p h with h' | ⟨h1, t', ht', h2⟩
      · exact Or.inl h'
      · exact Or.inr ⟨h1, t', List.mem_cons_of_mem _ ht', h2⟩
    | some m =>
      rw [hnm] at h
      dsimp only at h
      split at h
      · rename_i hcond
        rcases ih _ p h with h' | ⟨h1, t', ht', h2⟩
        · rcases List.mem_append.mp h' with h'' | h''
          · exact Or.inl h''
          · rcases List.mem_singleton.mp h'' with rfl
            exact Or.inr ⟨hcond.1, t, List.mem_cons_self _ _, hnm⟩
        · exact Or.inr ⟨h1, t', List.mem_cons_of_mem _ ht', h2⟩
      · rcases ih c p h with h' | ⟨h1, t', ht', h2⟩
        · exact Or.inl h'
        · exact Or.inr ⟨h1, t', List.mem_cons_of_mem _ ht', h2⟩

theorem pyReprResult_ne_empty (r : ToolResult) : pyReprResult r ≠ "" := by
  intro h
  have hl := congrArg String.length h
  simp only [pyReprResult, String.length_append] at hl
  have h1 : ("\x7b" : String).length = 1 := rfl
  have h2 : ("\x7d" : String).length = 1 := rfl
  have h3 : ("" : String).length = 0 := rfl
  rw [h1, h2, h3] at hl
  omega

theorem bridgeRun_append {endpoint tr} :
    ∀ (xs ys : List InputLine),
      bridgeRun endpoint tr (xs ++ ys) = bridgeRun endpoint tr xs ++ bridgeRun endpoint tr ys := by
  intro xs ys
  induction xs with
  | nil => simp [bridgeRun]
  | cons l rest ih =>
    cases l <;> simp [bridgeRun, ih]

/-! Claim theorems. -/

/-- C3: the sequence returned by get_tools_for_llm always has the
bootstrap tool_search descriptor as its first element, in the initial
state and every other state, after any merge, and after clear(), which
removes every entry except the bootstrap descriptor. -/
theorem claim_C3_bootstrap_always_offered (c : DynamicToolContext) :
    c.get_tools_for_llm.head? = some tool_search_spec ∧
    (DynamicToolContext.clear c).get_tools_for_llm = [tool_search_spec] ∧
    ∀ (parse : String → Option SearchResult) (text : String),
      ((DynamicToolContext.add_tools_from_search parse text c).1).get_tools_for_llm.head?
        = some tool_search_spec :=
  ⟨rfl, rfl, fun _ _ => rfl⟩

/-- C5: merging the same parsed descriptor list twice yields the same
get_tools_for_llm sequence as merging it once, for every starting
context. -/
theorem claim_C5_merge_idempotent (c : DynamicToolContext) (ts : List RawTool) :
    ((DynamicToolContext.add_tools_parsed ts
        (DynamicToolContext.add_tools_parsed ts c).1).1).get_tools_for_llm
      = ((DynamicToolContext.add_tools_parsed ts c).1).get_tools_for_llm := by
  have hnoop : DynamicToolContext.add_tools_parsed ts (DynamicToolContext.add_tools_parsed ts c).1
      = ((DynamicToolContext.add_tools_parsed ts c).1, []) := by
    apply add_tools_parsed_noop
    intro t ht n hname hn
    exact add_tools_parsed_mem hn ts c t ht hname
  rw [hnoop]

/-- C9: for every stdin line that is not valid JSON, the bridge emits
exactly one JSON-RPC error envelope with code -32700 and id null, and
keeps processing the remaining lines exactly as it would have. -/
theorem claim_C9_malformed_line_not_fatal (endpoint : String)
    (tr : List (String × JsonV) → BridgeHttpOut)
    (before after : List InputLine) (raw : String) :
    bridgeRun endpoint tr (before ++ InputLine.malformed raw :: after)
      = bridgeRun endpoint tr before
        ++ errorResponse none (-32700) "Parse error" :: bridgeRun endpoint tr after ∧
    errorResponse none (-32700) "Parse error"
      = JsonV.obj
          [ ("jsonrpc", JsonV.str "2.0"),
            ("id", JsonV.null),
            ("error", JsonV.obj
              [ ("code", JsonV.int (-32700)),
                ("message", JsonV.str "Parse error") ]) ] := by
  constructor
  · rw [bridgeRun_append]; rfl
  · rfl

/-- C10: extract_tool_result returns the text fields of all text-typed
content blocks joined by newline in block order, and with zero text-typed
blocks it returns the str() rendering of the whole result dict, which is
never the empty string. -/
theorem claim_C10_extract_tool_result (r : ToolResult) :
    ((r.content.getD []).filter (fun b => b.type == some "text") ≠ [] →
      extract_tool_result r = String.intercalate "\n"
        (((r.content.getD []).filter (fun b => b.type == some "text")).map
          (fun b => b.text.getD ""))) ∧
    ((r.content.getD []).filter (fun b => b.type == some "text") = [] →
      extract_tool_result r = pyReprResult r ∧ extract_tool_result r ≠ "") := by
  constructor
  · intro h
    simp only [extract_tool_result]
    rw [if_neg (by simpa using h)]
  · intro h
    have he : extract_tool_result r = pyReprResult r := by
      simp only [extract_tool_result]
      rw [if_pos (by simp [h])]
    exact ⟨he, he ▸ pyReprResult_ne_empty r⟩

/-- Witness for C10: a result with one text block and one image block
joins the text fields; a result with no text-typed block falls back to
the non-empty str() rendering. -/
theorem claim_C10_witness :
    (extract_tool_result
        (⟨some [⟨some "text", some "4"⟩, ⟨some "image", some "ignored"⟩], none⟩ : ToolResult)
      = String.intercalate "\n"
          ((((some [(⟨some "text", some "4"⟩ : ContentBlock), ⟨some "image", some "ignored"⟩] :
                Option (List ContentBlock)).getD []).filter
            (fun b => b.type == some "text")).map (fun b => b.text.getD ""))) ∧
    (extract_tool_result (⟨some [⟨some "image", some "x"⟩], some true⟩ : ToolResult)
      = pyReprResult (⟨some [⟨some "image", some "x"⟩], some true⟩ : ToolResult) ∧
     extract_tool_result (⟨some [⟨some "image", some "x"⟩], some true⟩ : ToolResult) ≠ "") :=
  ⟨(claim_C10_extract_tool_result _).1 (by decide),
   (claim_C10_extract_tool_result _).2 (by decide)⟩

/-- C4 counterexample: the merge loop has no bootstrap-name exclusion, so
merging a raw list containing an entry named tool_search into the fresh
context stores that entry, and the descriptor sequence offered to the
model then carries two descriptors with the bootstrap name instead of
exactly one. -/
theorem claim_C4_counterexample :
    ((DynamicToolContext.add_tools_parsed
        [(⟨some "tool_search", some "impostor", none, none⟩ : RawTool)] ⟨[]⟩).1.get_tools_for_llm.countP
      (fun t => t.function.name == "tool_search")) = 2 := by decide

/-- C4 amended: the merge loop stores only entries whose name is present
and non-empty and not already stored (nameless entries are ignored), but
it does not exclude the bootstrap name: for a well-formed context that
does not yet store an entry under the bootstrap name, merging a list
containing an entry named tool_search yields a descriptor sequence with
exactly two descriptors bearing the bootstrap name. -/
theorem claim_C4_amended (c : DynamicToolContext) (ts : List RawTool) :
    (∀ p ∈ (DynamicToolContext.add_tools_parsed ts c).1.discovered_tools,
      p ∈ c.discovered_tools ∨ (p.1 ≠ "" ∧ ∃ t ∈ ts, t.name = some p.1)) ∧
    ((∀ p ∈ c.discovered_tools, p.2.function.name = p.1) →
      lookupTool "tool_search" c.discovered_tools = none →
      (∃ t ∈ ts, t.name = some "tool_search") →
      ((DynamicToolContext.add_tools_parsed ts c).1.get_tools_for_llm.countP
        (fun t => t.function.name == "tool_search")) = 2) := by
  constructor
  · exact add_tools_parsed_mem_characterization ts c
  · intro hwf hnone hex
    have hwf' := add_tools_parsed_WF ts c hwf
    simp only [DynamicToolContext.get_tools_for_llm, List.countP_cons]
    rw [countP_map_snd_of_WF hwf',
      add_tools_parsed_countP_one (by decide) ts c hex hnone]
    rfl

/-- Witness for C4 amended: a context already holding one well-formed
descriptor, merged with a nameless entry and a tool_search impostor. -/
theorem claim_C4_witness :
    ((DynamicToolContext.add_tools_parsed
        [(⟨none, some "nameless", none, none⟩ : RawTool),
         (⟨some "tool_search", some "impostor", none, none⟩ : RawTool)]
        ⟨[("calc", toolSpecOfRaw "calc" ⟨some "calc", none, none, none⟩)]⟩).1.get_tools_for_llm.countP
      (fun t => t.function.name == "tool_search")) = 2 :=
  (claim_C4_amended ⟨[("calc", toolSpecOfRaw "calc" ⟨some "calc", none, none, none⟩)]⟩ _).2
    (by intro p hp; rcases List.mem_singleton.mp hp with rfl; rfl)
    rfl
    ⟨⟨some "tool_search", some "impostor", none, none⟩,
      List.mem_cons_of_mem _ (List.mem_singleton_self _), rfl⟩

/-- C6 counterexample: the demo MCP client performs no context check, so
invoking a name absent from the tool context still issues a tools/call
transport request and consumes a request id. -/
theorem claim_C6_counterexample :
    (⟨[]⟩ : DynamicToolContext).is_known_tool "get_weather" = false ∧
    ((demoCallTool (fun _ => HttpOut.resp 200 (some ⟨some (JsonV.obj []), none⟩))
        ⟨"http://localhost:8080/mcp", 0, true, JsonV.obj []⟩ "get_weather" none).2.2.map
      (fun q => q.method)) = ["tools/call"] ∧
    (demoCallTool (fun _ => HttpOut.resp 200 (some ⟨some (JsonV.obj []), none⟩))
        ⟨"http://localhost:8080/mcp", 0, true, JsonV.obj []⟩ "get_weather" none).2.1.request_id
      = 1 :=
  ⟨rfl, rfl, rfl⟩

/-- C6 amended: the agent client does guard locally: calling a name that
is neither the bootstrap name nor a discovered key on an initialized
agent raises the not-in-context MCPError, leaves the request-id counter
untouched, and sends nothing over the transport. -/
theorem claim_C6_amended (tr : SentReq → HttpOut) (st : ModelGateMCPAgent)
    (name : String) (arguments : Option JsonV)
    (hInit : st.inited = true) (hName : name ≠ "tool_search")
    (hCtx : (lookupJson name st.discovered_tools).isNone = true) :
    agentCallTool tr st name arguments
      = (CallResult.mcpErr (-1)
          ("Tool '" ++ name ++ "' not in context. Use search_tools() to discover it first."),
         st, []) := by
  simp only [agentCallTool, hInit]
  rw [if_neg (by simp), if_pos ⟨hName, hCtx⟩]

/-- Witness for C6 amended: an initialized agent with an empty context
rejects a call to get_weather locally. -/
theorem claim_C6_witness :
    agentCallTool (fun _ => HttpOut.connErr)
        ⟨"http://localhost:8080/mcp", 0, true, []⟩ "get_weather" none
      = (CallResult.mcpErr (-1)
          ("Tool '" ++ "get_weather" ++ "' not in context. Use search_tools() to discover it first."),
         ⟨"http://localhost:8080/mcp", 0, true, []⟩, []) :=
  claim_C6_amended _ _ _ _ rfl (by decide) rfl

/-- C8: the stdio bridge maps each transport failure to a distinct
protocol error code: connection failure to -32003, timeout to -32004,
HTTP 401 to -32001, HTTP 404 to -32002, any other HTTP error status to
-32005, an undecodable response body to -32006; and a decoded response
body, error field included, is returned verbatim. -/
theorem claim_C8_bridge_failure_mapping :
    (∀ endpoint (req : List (String × JsonV)),
      forwardRequest endpoint req BridgeHttpOut.connErr
        = errorResponse (lookupField "id" req) (-32003)
            ("Failed to connect to ModelGate at " ++ endpoint)) ∧
    (∀ endpoint (req : List (String × JsonV)),
      forwardRequest endpoint req BridgeHttpOut.timeout
        = errorResponse (lookupField "id" req) (-32004) "Request timed out") ∧
    (∀ endpoint (req : List (String × JsonV)) body,
      forwardRequest endpoint req (BridgeHttpOut.resp 401 body)
        = errorResponse (lookupField "id" req) (-32001)
            "Authentication failed. Check your API key.") ∧
    (∀ endpoint (req : List (String × JsonV)) body,
      forwardRequest endpoint req (BridgeHttpOut.resp 404 body)
        = errorResponse (lookupField "id" req) (-32002)
            "MCP endpoint not found. Ensure ModelGate is running.") ∧
    (∀ endpoint (req : List (String × JsonV)) status body,
      400 ≤ status → status ≠ 401 → status ≠ 404 →
      forwardRequest endpoint req (BridgeHttpOut.resp status body)
        = errorResponse (lookupField "id" req) (-32005)
            ("HTTP error: " ++ toString status)) ∧
    (∀ endpoint (req : List (String × JsonV)) status,
      status < 400 →
      forwardRequest endpoint req (BridgeHttpOut.resp status none)
        = errorResponse (lookupField "id" req) (-32006)
            "Invalid JSON response from server") ∧
    (∀ endpoint (req : List (String × JsonV)) status v,
      status < 400 →
      forwardRequest endpoint req (BridgeHttpOut.resp status (some v)) = v) ∧
    ([-32001, -32002, -32003, -32004, -32005, -32006] : List Int).Nodup := by
  refine ⟨fun _ _ => rfl, fun _ _ => rfl, fun _ _ _ => rfl, fun _ _ _ => rfl, ?_, ?_, ?_, by decide⟩
  · intro endpoint req status body h h401 h404
    simp only [forwardRequest]
    rw [if_neg h401, if_neg h404, if_pos h]
  · intro endpoint req status h
    simp only [forwardRequest]
    rw [if_neg (by omega : ¬ status = 401), if_neg (by omega : ¬ status = 404),
      if_neg (by omega : ¬ 400 ≤ status)]
  · intro endpoint req status v h
    simp only [forwardRequest]
    rw [if_neg (by omega : ¬ status = 401), if_neg (by omega : ¬ status = 404),
      if_neg (by omega : ¬ 400 ≤ status)]

/-- Witness for C8: a 500 status, an undecodable 200 body and a decoded
200 body, each at a concrete request. -/
theorem claim_C8_witness :
    (forwardRequest "http://localhost:8080/mcp" [] (BridgeHttpOut.resp 500 none)
      = errorResponse none (-32005) ("HTTP error: " ++ toString (500 : Nat))) ∧
    (forwardRequest "http://localhost:8080/mcp" [] (BridgeHttpOut.resp 200 none)
      = errorResponse none (-32006) "Invalid JSON response from server") ∧
    (forwardRequest "http://localhost:8080/mcp" [] (BridgeHttpOut.resp 200 (some (JsonV.int 3)))
      = JsonV.int 3) :=
  ⟨claim_C8_bridge_failure_mapping.2.2.2.2.1 _ _ 500 none (by omega) (by omega) (by omega),
   claim_C8_bridge_failure_mapping.2.2.2.2.2.1 _ _ 200 (by omega),
   claim_C8_bridge_failure_mapping.2.2.2.2.2.2.1 _ _ 200 (JsonV.int 3) (by omega)⟩

/-- C1 counterexample: a transport failure of the model-chat call (a
requests exception that is not a ChatError) is not rolled back: the turn
aborts with the exception and the conversation keeps the user message,
so its length is one more than the length before the turn began. -/
theorem claim_C1_counterexample :
    (runTurn (fun _ => ChatOutcome.raised "ConnectionError")
        (fun _ _ => ToolOutcome.mcpError (-1) "") (fun _ => none) (fun _ => none)
        "hello" [] ⟨[]⟩).outcome = TurnOutcome.raised "ConnectionError" ∧
    (runTurn (fun _ => ChatOutcome.raised "ConnectionError")
        (fun _ _ => ToolOutcome.mcpError (-1) "") (fun _ => none) (fun _ => none)
        "hello" [] ⟨[]⟩).messages = [{ role := "user", content := some "hello" }] :=
  ⟨rfl, rfl⟩

/-- C1 amended: only a caught ChatError (the protocol-error path of the
chat client) rolls the conversation back, and then exactly to the
snapshot taken before the user message was appended; an uncaught
exception (the transport-error path) leaves the turn with the user
message, and whatever the turn appended, still in the log. -/
theorem claim_C1_amended (chatO : Nat → ChatOutcome) (toolO : String → JsonV → ToolOutcome)
    (pa : String → Option JsonV) (ps : String → Option SearchResult)
    (user : String) (ms0 : List Msg) (ctx0 : DynamicToolContext) :
    ((runTurn chatO toolO pa ps user ms0 ctx0).outcome = TurnOutcome.rolledBack →
      (runTurn chatO toolO pa ps user ms0 ctx0).messages = ms0) ∧
    (∀ e, (runTurn chatO toolO pa ps user ms0 ctx0).outcome = TurnOutcome.raised e →
      ∃ extra, (runTurn chatO toolO pa ps user ms0 ctx0).messages
        = ms0 ++ { role := "user", content := some user } :: extra) := by
  have hlen : ms0.length ≤
      (ms0 ++ [({ role := "user", content := some user } : Msg)]).length := by
    simp
  constructor
  · intro h
    rw [runTurn] at h ⊢
    rw [runLoop_rolledBack 10 0
      (ms0 ++ [({ role := "user", content := some user } : Msg)]) ctx0 hlen h]
    exact List.take_left ms0 _
  · intro e h
    rw [runTurn] at h ⊢
    rcases runLoop_shape 10 0
        (ms0 ++ [({ role := "user", content := some user } : Msg)]) ctx0 hlen with
      ⟨hout, _⟩ | ⟨ex, hex⟩
    · rw [h] at hout; cases hout
    · exact ⟨ex, by rw [hex]; simp⟩

/-- Witness for C1 amended: a ChatError on the first model call rolls a
one-message log back to that message; an uncaught timeout keeps the user
message. -/
theorem claim_C1_witness :
    ((runTurn (fun _ => ChatOutcome.chatError "upstream error")
        (fun _ _ => ToolOutcome.mcpError (-1) "") (fun _ => none) (fun _ => none)
        "hi" [{ role := "system", content := some "s" }] ⟨[]⟩).messages
      = [{ role := "system", content := some "s" }]) ∧
    (∃ extra, (runTurn (fun _ => ChatOutcome.raised "Timeout")
        (fun _ _ => ToolOutcome.mcpError (-1) "") (fun _ => none) (fun _ => none)
        "hi" [{ role := "system", content := some "s" }] ⟨[]⟩).messages
      = [{ role := "system", content := some "s" }]
          ++ { role := "user", content := some "hi" } :: extra) :=
  ⟨(claim_C1_amended _ _ _ _ _ _ _).1 rfl,
   (claim_C1_amended _ _ _ _ _ _ _).2 "Timeout" rfl⟩

/-- C2: a user turn performs at most 10 model-chat calls (the hard-coded
max_iterations ceiling); and when every model call requests tool calls
(and every tool call is handled rather than raising), the loop stops
after exactly 10 model calls, at the ceiling, with no plain-text
assistant message appended for that turn. -/
theorem claim_C2_model_call_ceiling (chatO : Nat → ChatOutcome)
    (toolO : String → JsonV → ToolOutcome) (pa : String → Option JsonV)
    (ps : String → Option SearchResult) (user : String) (ms0 : List Msg)
    (ctx0 : DynamicToolContext) :
    (runTurn chatO toolO pa ps user ms0 ctx0).modelCalls ≤ 10 ∧
    ((∀ k, chatReturnsToolCalls (chatO k)) → (∀ n a, toolNoRaise (toolO n a)) →
      (runTurn chatO toolO pa ps user ms0 ctx0).modelCalls = 10 ∧
      (runTurn chatO toolO pa ps user ms0 ctx0).outcome = TurnOutcome.ceiling ∧
      ∀ m ∈ (runTurn chatO toolO pa ps user ms0 ctx0).messages.drop (ms0.length + 1),
        m.role = "tool" ∨ m.tool_calls ≠ []) := by
  constructor
  · rw [runTurn]
    simpa using runLoop_calls_le 10 0
      (ms0 ++ [({ role := "user", content := some user } : Msg)]) ctx0
  · intro h1 h2
    obtain ⟨ex, hmsg, hcalls, hout, hprops⟩ := runLoop_ceiling h1 h2 10 0
      (ms0 ++ [({ role := "user", content := some user } : Msg)]) ctx0
    refine ⟨by rw [runTurn, hcalls], by rw [runTurn]; exact hout, ?_⟩
    intro m hm
    rw [runTurn, hmsg] at hm
    have hl : (ms0 ++ [({ role := "user", content := some user } : Msg)]).length
        = ms0.length + 1 := by simp
    rw [← hl, List.drop_left] at hm
    exact hprops m hm

/-- Witness for C2: a model that always requests one tool_search call and
a gateway whose tool calls always fail with a caught MCPError drive the
turn to exactly 10 model calls and the ceiling outcome. -/
theorem claim_C2_witness :
    (runTurn (fun _ => ChatOutcome.ok ⟨[⟨⟨none, [⟨"c1", ⟨"tool_search", "\x7b\x7d"⟩⟩]⟩⟩]⟩)
        (fun _ _ => ToolOutcome.mcpError (-1) "down") (fun _ => none) (fun _ => none)
        "go" [] ⟨[]⟩).modelCalls = 10 ∧
    (runTurn (fun _ => ChatOutcome.ok ⟨[⟨⟨none, [⟨"c1", ⟨"tool_search", "\x7b\x7d"⟩⟩]⟩⟩]⟩)
        (fun _ _ => ToolOutcome.mcpError (-1) "down") (fun _ => none) (fun _ => none)
        "go" [] ⟨[]⟩).outcome = TurnOutcome.ceiling := by
  have h := (claim_C2_model_call_ceiling
      (fun _ => ChatOutcome.ok ⟨[⟨⟨none, [⟨"c1", ⟨"tool_search", "\x7b\x7d"⟩⟩]⟩⟩]⟩)
      (fun _ _ => ToolOutcome.mcpError (-1) "down") (fun _ => none) (fun _ => none)
      "go" [] ⟨[]⟩).2
    (fun _ => ⟨_, _, _, rfl, rfl, by decide⟩) (fun _ _ => trivial)
  exact ⟨h.1, h.2.1⟩

/-- C7: for a turn that ran to completion, the tool-role messages
appended during the turn correspond one to one, in order, with the tool
calls the model requested across the turn, each carrying the id of the
call it answers; a caught MCPError during one tool call still yields its
tool-role message, so the rest of the batch executes. -/
theorem claim_C7_tool_messages_match_requests (chatO : Nat → ChatOutcome)
    (toolO : String → JsonV → ToolOutcome) (pa : String → Option JsonV)
    (ps : String → Option SearchResult) (user : String) (ms0 : List Msg)
    (ctx0 : DynamicToolContext)
    (h : completedOutcome (runTurn chatO toolO pa ps user ms0 ctx0).outcome) :
    (((runTurn chatO toolO pa ps user ms0 ctx0).messages.drop (ms0.length + 1)).filter
        (fun m => m.role == "tool")).map (·.tool_call_id)
      = (requestedToolCalls chatO (runTurn chatO toolO pa ps user ms0 ctx0).modelCalls).map
          (fun tc => some tc.id) := by
  rw [runTurn] at h ⊢
  obtain ⟨ex, k, hmsg, hcalls, hfilter⟩ := runLoop_completed_toolMsgs 10 0
    (ms0 ++ [({ role := "user", content := some user } : Msg)]) ctx0 h
  rw [hmsg, hcalls]
  have hl : (ms0 ++ [({ role := "user", content := some user } : Msg)]).length
      = ms0.length + 1 := by simp
  rw [← hl, List.drop_left, requestedToolCalls]
  simpa using hfilter

/-- Witness for C7: a first model call requesting two tool calls (one
succeeding, one failing with a caught MCPError) followed by a plain-text
answer yields exactly two tool-role messages carrying the two request
ids, in order. -/
theorem claim_C7_witness :
    (((runTurn
          (fun k => if k = 0
            then ChatOutcome.ok ⟨[⟨⟨none,
              [⟨"a", ⟨"tool_search", "bad"⟩⟩, ⟨"b", ⟨"calc", "\x7b\x7d"⟩⟩]⟩⟩]⟩
            else ChatOutcome.ok ⟨[⟨⟨some "done", []⟩⟩]⟩)
          (fun n _ => if n = "tool_search"
            then ToolOutcome.ok ⟨some [⟨some "text", some "found"⟩], none⟩
            else ToolOutcome.mcpError (-1) "down")
          (fun _ => none) (fun _ => none) "q" [] ⟨[]⟩).messages.drop
        (([] : List Msg).length + 1)).filter
        (fun m => m.role == "tool")).map (·.tool_call_id)
      = (requestedToolCalls
          (fun k => if k = 0
            then ChatOutcome.ok ⟨[⟨⟨none,
              [⟨"a", ⟨"tool_search", "bad"⟩⟩, ⟨"b", ⟨"calc", "\x7b\x7d"⟩⟩]⟩⟩]⟩
            else ChatOutcome.ok ⟨[⟨⟨some "done", []⟩⟩]⟩)
          (runTurn
            (fun k => if k = 0
              then ChatOutcome.ok ⟨[⟨⟨none,
                [⟨"a", ⟨"tool_search", "bad"⟩⟩, ⟨"b", ⟨"calc", "\x7b\x7d"⟩⟩]⟩⟩]⟩
              else ChatOutcome.ok ⟨[⟨⟨some "done", []⟩⟩]⟩)
            (fun n _ => if n = "tool_search"
              then ToolOutcome.ok ⟨some [⟨some "text", some "found"⟩], none⟩
              else ToolOutcome.mcpError (-1) "down")
            (fun _ => none) (fun _ => none) "q" [] ⟨[]⟩).modelCalls).map
          (fun tc => some tc.id) :=
  claim_C7_tool_messages_match_requests _ _ _ _ _ _ _ (by trivial)
